import Mathlib

/-!
Verification of the exercise-tracker service (`src/unnamed/part_000`, `src/index.js`).

The service is an Express app over MongoDB.  Its interesting logic is pure:
duration validation (`isValidDuration`), date normalization (`checkDate`),
and the log filter of `GET /api/users/:_id/logs`.  We embed that logic
shallowly:

* JavaScript `Date` arithmetic is modelled on millisecond timestamps (`Int`),
  with the Gregorian civil-date conversions (`daysFromCivil`, `civilFromDays`)
  implementing ECMAScript `Date.UTC` / field extraction.  The runtime's local
  timezone offset (`Date.prototype.getTimezoneOffset`, minutes) is a parameter
  `off`; a constant offset is assumed (daylight-saving transitions are not
  modelled).
* JavaScript strings are handled through their character lists; `parseInt`,
  `String.prototype.split` and template literals are modelled directly.
* JavaScript numbers are modelled as `Rat` (double rounding is not modelled);
  request-body values that may be either numbers or strings are `JSVal`.
* The MongoDB store is a list of user records; `ObjectId` values are strings
  with mongoose's validity check.  Each route handler is a pure function from
  a request and a store to an HTTP response (and possibly a new store); every
  `res.json(...)` call is `resJson`, which carries status 200 because the
  handlers never call `res.status`.
-/

/-! ## Civil-date arithmetic (ECMAScript `Date` internals) -/

/-- Days since 1970-01-01 of the Gregorian date `(y, m, d)` (month 1-12).
This is the day-number computation performed by ECMAScript `MakeDay` for
in-range arguments, written in the standard era/year-of-era form. -/
def daysFromCivil (y m d : Int) : Int :=
  let y2 := if m ≤ 2 then y - 1 else y
  let era := y2 / 400
  let yoe := y2 - era * 400
  let mp := if m > 2 then m - 3 else m + 9
  let doy := (153 * mp + 2) / 5 + d - 1
  let doe := 365 * yoe + yoe / 4 - yoe / 100 + doy
  era * 146097 + doe - 719468

/-- Gregorian date `(year, month, day)` of day number `z` (days since
1970-01-01): the year/month/day field extraction of ECMAScript `Date`. -/
def civilFromDays (z : Int) : Int × Int × Int :=
  let z2 := z + 719468
  let era := z2 / 146097
  let doe := z2 - era * 146097
  let yoe := (doe - doe / 1460 + doe / 36524 - doe / 146096) / 365
  let y2 := yoe + era * 400
  let doy := doe - (365 * yoe + yoe / 4 - yoe / 100)
  let mp := (5 * doy + 2) / 153
  let d := doy - (153 * mp + 2) / 5 + 1
  let m := if mp < 10 then mp + 3 else mp - 9
  (if m ≤ 2 then y2 + 1 else y2, m, d)

/-- Number of days of month `m` (1-12) in year `y`, Gregorian rules. -/
def daysInMonth (y m : Int) : Int :=
  if m = 2 then (if y % 4 = 0 ∧ (y % 100 ≠ 0 ∨ y % 400 = 0) then 29 else 28)
  else if m = 4 ∨ m = 6 ∨ m = 9 ∨ m = 11 then 30 else 31

/-- Numerator of the year-of-era estimate in `civilFromDays`. -/
def yearNum (x : Nat) : Nat := x - x/1460 + x/36524 - x/146096

/-- Year-of-era recovered from a day-of-era. -/
def yoeOf (x : Nat) : Nat := yearNum x / 365

/-- 1 when the civil year following year-of-era `yoe` is a leap year. -/
def leapBit (yoe : Nat) : Nat :=
  if (yoe+1) % 4 = 0 ∧ ((yoe+1) % 100 ≠ 0 ∨ yoe = 399) then 1 else 0

/-! ## JavaScript string and number primitives -/

/-- `String.prototype.split` with a single-character separator, on character
lists: `"a-b".split("-") = ["a","b"]`, `"".split("-") = [""]`. -/
def splitChars (sep : Char) : List Char → List (List Char)
  | [] => [[]]
  | c :: cs =>
    let r := splitChars sep cs
    if c = sep then [] :: r
    else
      match r with
      | [] => [[c]]
      | g :: gs => (c :: g) :: gs

/-- `String.prototype.split` with a single-character separator. -/
def jsSplit (sep : Char) (s : String) : List String :=
  (splitChars sep s.data).map (fun l => ⟨l⟩)

/-- Decimal value of a digit list (most significant first). -/
def digitsVal (l : List Char) : Nat :=
  l.foldl (fun a c => a * 10 + (c.toNat - 48)) 0

/-- The longest decimal-digit prefix, or `none` if there is none:
the digit-consuming core of `parseInt(s, 10)`. -/
def digitsPrefix (l : List Char) : Option Nat :=
  let ds := l.takeWhile Char.isDigit
  if ds.isEmpty then none else some (digitsVal ds)

/-- JavaScript `parseInt(s, 10)`: skip leading whitespace, read an optional
sign and then the longest digit prefix; `none` models `NaN`.  (`parseInt`
ignores any trailing non-digit characters, so `"4.7"` parses to `4`.) -/
def parseIntJS (s : String) : Option Int :=
  let t := s.data.dropWhile (fun c => c = ' ' ∨ c = '\t' ∨ c = '\n' ∨ c = '\r')
  match t with
  | '-' :: rest => (digitsPrefix rest).map (fun n => -(n : Int))
  | '+' :: rest => (digitsPrefix rest).map (fun n => (n : Int))
  | rest => (digitsPrefix rest).map (fun n => (n : Int))

/-- A JSON request-body value that may be a number or a string (form-encoded
bodies deliver strings, JSON bodies may deliver numbers).  JavaScript numbers
are modelled as rationals. -/
inductive JSVal where
  | num (q : Rat)
  | str (s : String)
deriving DecidableEq

/-- JavaScript truthiness of a body value (`0` and `""` are falsy). -/
def jsvalFalsy : JSVal → Bool
  | .num q => q = 0
  | .str s => s = ""

/-- Decimal digit characters of `n`. -/
def natDigits (n : Nat) : List Char := Nat.toDigits 10 n

/-- Fuel-bounded scan for the decimal exponent of a positive rational `n/d`
below one, on its numerator and denominator: the result `-k` satisfies
`10^(-k-1) ≤ n/d < 10^(-k)`. -/
def decExpSmall : Nat → Nat → Nat → Nat → Int
  | 0, _, _, k => -(k : Int)
  | fuel+1, n, d, k =>
    if d ≤ n * 10 then -(k : Int) else decExpSmall fuel (n * 10) d (k + 1)

/-- The decimal exponent `n` of a positive rational: `10^(n-1) ≤ q < 10^n`. -/
def decExp (q : Rat) : Int :=
  if 1 ≤ q then ((natDigits (q.num.toNat / q.den)).length : Int)
  else decExpSmall ((natDigits q.den).length + 1) q.num.toNat q.den 0

/-- Strip trailing zero characters. -/
def stripZeros (l : List Char) : List Char :=
  (l.reverse.dropWhile (fun c => c = '0')).reverse

/-- The first 40 significant decimal digits of a positive rational:
`⌊q * 10^(40 - decExp q)⌋`, computed on the numerator and denominator. -/
def sigDigits (q : Rat) : List Char :=
  natDigits (q.num.toNat * 10 ^ ((40:Int) - decExp q).toNat
    / (q.den * 10 ^ (decExp q - 40).toNat))

/-- ECMAScript `Number::toString` of a positive rational: positional notation
while the decimal exponent lies in `(-6, 21]`, exponential notation
(`"1e+21"`, `"1e-7"`) outside it. -/
def ratToStringPos (q : Rat) : String :=
  let n := decExp q
  let ds := stripZeros (sigDigits q)
  if 21 < n ∨ n ≤ -6 then
    (match ds with
     | [] => "0"
     | [d] => ⟨[d]⟩
     | d :: rest => ⟨[d]⟩ ++ "." ++ ⟨rest⟩)
      ++ "e" ++ (if n - 1 < 0 then "-" else "+") ++ ⟨natDigits (n - 1).natAbs⟩
  else if (ds.length : Int) ≤ n then
    ⟨ds⟩ ++ ⟨List.replicate (n - ds.length).toNat '0'⟩
  else if 0 < n then
    ⟨ds.take n.toNat⟩ ++ "." ++ ⟨ds.drop n.toNat⟩
  else
    "0." ++ ⟨List.replicate (-n).toNat '0'⟩ ++ ⟨ds⟩

/-- JavaScript `String(q)` for a number: exact for rationals whose decimal
expansion terminates within 40 significant digits (every IEEE double in the
positional range does); longer expansions are truncated there. -/
def ratToString (q : Rat) : String :=
  if q = 0 then "0"
  else if q < 0 then "-" ++ ratToStringPos (-q)
  else ratToStringPos q

/-- `parseInt(v, 10)` on a body value: the source's `parseInt` stringifies a
number first and then parses the longest numeric prefix of the result, so
`1e21` stringifies to `"1e+21"` and parses to `1`, while values rendered
positionally are truncated toward zero. -/
def parseIntVal : JSVal → Option Int
  | .num q => parseIntJS (ratToString q)
  | .str s => parseIntJS s

/-- JavaScript `String(v)` for the body values this service interpolates
into error messages. -/
def jsvalToString : JSVal → String
  | .num q => ratToString q
  | .str s => s

/-- JavaScript whitespace (the characters this model trims). -/
def isJsWS (c : Char) : Bool := c = ' ' ∨ c = '\t' ∨ c = '\n' ∨ c = '\r'

/-- Trim whitespace from both ends. -/
def jsTrim (l : List Char) : List Char :=
  ((l.dropWhile isJsWS).reverse.dropWhile isJsWS).reverse

/-- The exponent part `e±ddd` of a string numeric literal (sign optional),
fully consuming its input. -/
def expPart : List Char → Option Int
  | '+' :: r => if ¬ r.isEmpty ∧ r.all Char.isDigit then some ((digitsVal r : Int)) else none
  | '-' :: r => if ¬ r.isEmpty ∧ r.all Char.isDigit then some (-(digitsVal r : Int)) else none
  | r => if ¬ r.isEmpty ∧ r.all Char.isDigit then some ((digitsVal r : Int)) else none

/-- The rational `m * 10^e`, built from integer arithmetic on the numerator
and denominator. -/
def sciRat (m : Nat) (e : Int) : Rat :=
  if 0 ≤ e then ((m * 10 ^ e.toNat : Nat) : Int)
  else mkRat (m : Int) (10 ^ (-e).toNat)

/-- An unsigned decimal numeric literal with optional fraction and optional
exponent (`ddd`, `ddd.ddd`, `.ddd`, `ddd.`, each optionally followed by
`e`/`E` and an exponent), fully consuming its input.  The value of
`ip.fp e× exp` is `(ip·10^|fp| + fp) * 10^(exp - |fp|)`. -/
def decCore (t : List Char) : Option Rat :=
  let ip := t.takeWhile Char.isDigit
  let r1 := t.drop ip.length
  match r1 with
  | [] => if ip.isEmpty then none else some (sciRat (digitsVal ip) 0)
  | '.' :: r2 =>
    let fp := r2.takeWhile Char.isDigit
    let r3 := r2.drop fp.length
    if ip.isEmpty ∧ fp.isEmpty then none
    else
      let m := digitsVal ip * 10 ^ fp.length + digitsVal fp
      match r3 with
      | [] => some (sciRat m (-(fp.length : Int)))
      | 'e' :: r4 => (expPart r4).map (fun e => sciRat m (e - fp.length))
      | 'E' :: r4 => (expPart r4).map (fun e => sciRat m (e - fp.length))
      | _ => none
  | 'e' :: r4 =>
    if ip.isEmpty then none
    else (expPart r4).map (fun e => sciRat (digitsVal ip) e)
  | 'E' :: r4 =>
    if ip.isEmpty then none
    else (expPart r4).map (fun e => sciRat (digitsVal ip) e)
  | _ => none

/-- Value of a hexadecimal digit character. -/
def hexDigitVal (c : Char) : Option Nat :=
  if c.isDigit then some (c.toNat - 48)
  else if 'a' ≤ c ∧ c ≤ 'f' then some (c.toNat - 87)
  else if 'A' ≤ c ∧ c ≤ 'F' then some (c.toNat - 55)
  else none

/-- A non-empty digit string in radix `b` (digits drawn from the hex set). -/
def radixNum (b : Nat) (l : List Char) : Option Rat :=
  if l.isEmpty then none
  else
    (l.foldl (fun acc c =>
      match acc, hexDigitVal c with
      | some a, some d => if d < b then some (a * b + d) else none
      | _, _ => none) (some 0)).map (fun n => (((n : Int)) : Rat))

/-- JavaScript `Number(s)` on a whitespace-trimmed character list: the empty
string is 0; an optional sign may precede a decimal literal (with optional
fraction and exponent); `0x`/`0o`/`0b` prefixes read unsigned hexadecimal,
octal and binary literals; anything else is `none` (`NaN`).  (`"Infinity"`
has no rational counterpart and is left unmodelled as `none`; no verified
statement depends on it.) -/
def numberOfChars (l : List Char) : Option Rat :=
  match l with
  | [] => some 0
  | '+' :: r => decCore r
  | '-' :: r => (decCore r).map (fun q => -q)
  | '0' :: 'x' :: r => radixNum 16 r
  | '0' :: 'X' :: r => radixNum 16 r
  | '0' :: 'o' :: r => radixNum 8 r
  | '0' :: 'O' :: r => radixNum 8 r
  | '0' :: 'b' :: r => radixNum 2 r
  | '0' :: 'B' :: r => radixNum 2 r
  | r => decCore r

/-- Mongoose cast of a body value to a `Number` schema field, via JavaScript
`Number(value)` on the trimmed string; `none` models a `CastError`. -/
def castNumber : JSVal → Option Rat
  | .num q => some q
  | .str s => numberOfChars (jsTrim s.data)

/-! ## ECMAScript `Date` rendering and parsing -/

/-- ECMAScript `MakeFullYear`: years 0-99 are interpreted as 1900+y by the
`Date.UTC` constructor. -/
def makeFullYear (y : Int) : Int := if 0 ≤ y ∧ y ≤ 99 then y + 1900 else y

/-- ECMAScript `MakeDay` (in days): month overflow folds into the year, day
overflow into the month. -/
def makeDay (y m d : Int) : Int :=
  daysFromCivil (y + m / 12) (m % 12 + 1) 1 + (d - 1)

/-- `Date.UTC(y, m, d)` in milliseconds (`m` is the 0-based month index). -/
def dateUTCms (y m d : Int) : Int := makeDay (makeFullYear y) m d * 86400000

/-- Weekday names used by `Date.prototype.toDateString`. -/
def weekdayName (w : Int) : String :=
  ["Sun", "Mon", "Tue", "Wed", "Thu", "Fri", "Sat"].getD w.toNat ""

/-- Month names used by `Date.prototype.toDateString`. -/
def monthName (m : Int) : String :=
  ["Jan", "Feb", "Mar", "Apr", "May", "Jun",
   "Jul", "Aug", "Sep", "Oct", "Nov", "Dec"].getD (m - 1).toNat ""

/-- Zero-padded decimal rendering of a natural number to width `w`. -/
def padNum (w : Nat) (n : Nat) : String :=
  ⟨List.replicate (w - (natDigits n).length) '0' ++ natDigits n⟩

/-- Year rendering of `toDateString` (zero-padded to four digits). -/
def yearString (y : Int) : String :=
  if y < 0 then "-" ++ padNum 4 (-y).toNat else padNum 4 y.toNat

/-- `Date.prototype.toDateString` of timestamp `t` under the constant local
offset `off` (minutes, the value of `getTimezoneOffset`): the local fields of
`t` rendered as e.g. `"Sun Jan 01 2023"`. -/
def toDateString (off t : Int) : String :=
  let localT := t - off * 60000
  let days := localT / 86400000
  let c := civilFromDays days
  weekdayName ((days + 4) % 7) ++ " " ++ monthName c.2.1 ++ " "
    ++ padNum 2 c.2.2.toNat ++ " " ++ yearString c.1

/-- The `checkDate` helper of `src/unnamed/part_000` (lines 178-192): an
absent or empty date yields today's date string; otherwise the input is split
on `"-"`, its fields are `parseInt`ed, a UTC date is built, and the result is
shifted by `getTimezoneOffset` minutes before rendering with `toDateString`.
An unparseable field yields an invalid date, which renders as
`"Invalid Date"`.  `now` is the current timestamp. -/
def checkDate (off now : Int) (date : Option String) : String :=
  match date with
  | none => toDateString off now
  | some s =>
    if s = "" then toDateString off now
    else
      let parts := jsSplit '-' s
      match ((parts.get? 0).bind parseIntJS), ((parts.get? 1).bind parseIntJS),
            ((parts.get? 2).bind parseIntJS) with
      | some y, some mo, some dd =>
        let utc := dateUTCms y (mo - 1) dd
        toDateString off (utc + off * 60000)
      | _, _, _ => "Invalid Date"

/-- `new Date(s)` for a date-only string: the canonical `YYYY-MM-DD` format
parses as UTC midnight of the named day; anything else is modelled as an
invalid date (`none`).  Returns milliseconds. -/
def parseDateES (s : String) : Option Int :=
  match jsSplit '-' s with
  | [a, b, c] =>
    if a.data.length = 4 ∧ b.data.length = 2 ∧ c.data.length = 2
        ∧ a.data.all Char.isDigit ∧ b.data.all Char.isDigit ∧ c.data.all Char.isDigit then
      let y : Int := digitsVal a.data
      let mo : Int := digitsVal b.data
      let dd : Int := digitsVal c.data
      if 1 ≤ mo ∧ mo ≤ 12 ∧ 1 ≤ dd ∧ dd ≤ daysInMonth y mo then
        some (daysFromCivil y mo dd * 86400000)
      else none
    else none
  | _ => none

/-- Index of a month name, or `none`. -/
def monthIndex (s : String) : Option Nat :=
  (["Jan", "Feb", "Mar", "Apr", "May", "Jun",
    "Jul", "Aug", "Sep", "Oct", "Nov", "Dec"].indexOf? s)

/-- `new Date(s)` for a `toDateString`-formatted string (`"Www Mmm DD YYYY"`):
the runtime's fallback parser reads such strings as local time, so the result
is local midnight of the named day, `off` minutes after UTC midnight.
Returns milliseconds; `none` models an invalid date.  This is the cast
mongoose applies when a date string is stored into a `Date` field. -/
def parseDisplayDate (off : Int) (s : String) : Option Int :=
  match jsSplit ' ' s with
  | [_, mon, dd, yyyy] =>
    match monthIndex mon with
    | some mi =>
      if dd.data.all Char.isDigit ∧ ¬ dd.data.isEmpty
          ∧ yyyy.data.all Char.isDigit ∧ ¬ yyyy.data.isEmpty then
        some (daysFromCivil (digitsVal yyyy.data) (mi + 1) (digitsVal dd.data) * 86400000
          + off * 60000)
      else none
    | none => none
  | _ => none

/-! ## Data model and store -/

/-- An `Exercise` document (schema at `src/unnamed/part_000` lines 47-52):
`userId` references the owning user, `date` is a stored timestamp in
milliseconds. -/
structure Exercise where
  userId : String
  description : String
  duration : Rat
  date : Int
deriving DecidableEq

/-- A `User` document (schema at lines 55-58): a username and an embedded,
append-only list of exercises. -/
structure UserRec where
  id : String
  username : String
  log : List Exercise
deriving DecidableEq

/-- The MongoDB collection of users, with a counter from which fresh
`ObjectId`s are generated. -/
structure AppState where
  users : List UserRec
  nextOid : Nat
deriving DecidableEq

/-- An entry of the `log` array returned by `GET /api/users/:_id/logs`. -/
structure LogEntry where
  description : String
  duration : Rat
  date : String
deriving DecidableEq

/-- The JSON bodies this service produces. -/
inductive JsonBody where
  | jstr (s : String)
  | msgObj (message : String)
  | userCreated (username id : String)
  | userList (l : List (String × String))
  | exerciseAdded (id username description : String) (duration : Rat) (date : String)
  | logResult (id username : String) (count : Nat) (log : List LogEntry)
deriving DecidableEq

/-- An HTTP response: a status code and a JSON body. -/
structure HttpResponse where
  status : Nat
  body : JsonBody
deriving DecidableEq

/-- `res.json(b)`: the handlers never call `res.status`, so Express sends
every body with status 200. -/
def resJson (b : JsonBody) : HttpResponse := ⟨200, b⟩

/-- Hexadecimal digit test. -/
def isHexChar (c : Char) : Bool :=
  c.isDigit ∨ ('a' ≤ c ∧ c ≤ 'f') ∨ ('A' ≤ c ∧ c ≤ 'F')

/-- `mongoose.Types.ObjectId.isValid`: a 24-character hex string or any
12-character string. -/
def validObjectId (s : String) : Bool :=
  (s.data.length = 24 ∧ s.data.all isHexChar) ∨ s.data.length = 12

/-- A fresh `ObjectId` for the `n`-th created document: 24 decimal digits. -/
def objectIdOfNat (n : Nat) : String :=
  ⟨List.replicate (24 - (natDigits n).length) '0' ++ natDigits n⟩

/-- `User.findOne({_id: id})` / `User.findById(id)`: first user with the
given id. -/
def findUser (st : AppState) (id : String) : Option UserRec :=
  st.users.find? (fun u => u.id = id)

/-- Append an exercise to the log of the first user with the given id
(`user.log.push(newExercise); await user.save()`). -/
def updateUserLog : List UserRec → String → Exercise → List UserRec
  | [], _, _ => []
  | u :: us, id, ex =>
    if u.id = id then { u with log := u.log ++ [ex] } :: us
    else u :: updateUserLog us id ex

/-! ## Route handlers -/

/-- `isValidDuration` (`src/unnamed/part_000` lines 194-198, identical at
`src/index.js` lines 185-189): `parseInt` the value and require a non-`NaN`
result in `[0, 600]`. -/
def isValidDuration (v : JSVal) : Bool :=
  match parseIntVal v with
  | none => false
  | some n => decide (0 ≤ n ∧ n ≤ 600)

/-- The duration error message template of line 220. -/
def durationErrorMsg (v : JSVal) : String :=
  "The duration \"" ++ jsvalToString v ++ "\" is not valid; must be in minutes"

/-- `POST /api/users` (lines 115-136): create a user with the given username.
A missing or empty username fails mongoose's `required` validator; the caught
error has no duplicate-key code, so the handler answers
`{message: "Unable to create new user."}`. -/
def createUser (st : AppState) (username : Option String) : HttpResponse × AppState :=
  match username with
  | none => (resJson (.msgObj "Unable to create new user."), st)
  | some u =>
    if u = "" then (resJson (.msgObj "Unable to create new user."), st)
    else
      let oid := objectIdOfNat st.nextOid
      (resJson (.userCreated u oid),
       { users := st.users ++ [⟨oid, u, []⟩], nextOid := st.nextOid + 1 })

/-- `GET /api/users` (lines 142-170): all users as `{username, _id}` pairs. -/
def listUsers (st : AppState) : HttpResponse :=
  resJson (.userList (st.users.map (fun u => (u.username, u.id))))

/-- `POST /api/users/:_id/exercises` (lines 199-255).  In source order: an
invalid `ObjectId` answers `"Invalid user ID."`; the date is normalized by
`checkDate`; a falsy `duration` or `description` answers `"Missing fields."`;
an invalid duration answers the duration message; an unknown user answers
`"User not found."`; otherwise `Exercise.create` casts the duration
(`Number`) and the normalized date string (`Date`) — a failing cast raises
and answers `"Unable to add exercise."` — the exercise (with `userId` set to
the target id) is appended to the user's log, and the response carries the
user's id and username with the new exercise's fields, the date rendered by
`toDateString`. -/
def addExercise (off now : Int) (st : AppState) (idp : String)
    (description : Option String) (duration : Option JSVal) (date : Option String) :
    HttpResponse × AppState :=
  if validObjectId idp then
    let dateStr := checkDate off now date
    match description, duration with
    | some ds, some dv =>
      if ds = "" ∨ jsvalFalsy dv then (resJson (.jstr "Missing fields."), st)
      else if ¬ isValidDuration dv then (resJson (.jstr (durationErrorMsg dv)), st)
      else
        match findUser st idp with
        | none => (resJson (.jstr "User not found."), st)
        | some u =>
          match castNumber dv, parseDisplayDate off dateStr with
          | some q, some ts =>
            let ex : Exercise := ⟨idp, ds, q, ts⟩
            (resJson (.exerciseAdded u.id u.username ds q (toDateString off ts)),
             { st with users := updateUserLog st.users idp ex })
          | _, _ => (resJson (.jstr "Unable to add exercise."), st)
    | _, _ => (resJson (.jstr "Missing fields."), st)
  else (resJson (.jstr "Invalid user ID."), st)

/-- `Array.prototype.slice(0, k)` where `k` may be `NaN` (`none`, converted
to 0) or negative (counted from the end). -/
def jsSlice {α : Type} (xs : List α) (k : Option Int) : List α :=
  match k with
  | none => []
  | some n => if 0 ≤ n then xs.take n.toNat else xs.take ((xs.length : Int) + n).toNat

/-- The log filter of `GET /api/users/:_id/logs` (lines 287-302), the
`filterLog` contract of the specification.  Only when both `from` and `to`
are present and truthy is the log filtered, by comparing each entry's full
timestamp against `new Date(from)` and `new Date(to)` (a failed parse makes
both comparisons false); a truthy `limit` then slices the result to
`parseInt(limit, 10)` entries. -/
def filterLog (entries : List Exercise) (fromQ toQ limitQ : Option String) :
    List Exercise :=
  let ranged :=
    match fromQ, toQ with
    | some f, some t =>
      if f ≠ "" ∧ t ≠ "" then
        entries.filter (fun e =>
          match parseDateES f, parseDateES t with
          | some a, some b => decide (a ≤ e.date) && decide (e.date ≤ b)
          | _, _ => false)
      else entries
    | _, _ => entries
  match limitQ with
  | some l => if l ≠ "" then jsSlice ranged (parseIntJS l) else ranged
  | none => ranged

/-- `GET /api/users/:_id/logs` (lines 261-329).  A malformed id makes
`findOne` raise a `CastError`, answered from the catch block; an unknown user
answers `"User not found."`; otherwise the log is filtered, each surviving
entry is shaped as `{description, duration, date}` with the date rendered by
`toDateString`, and the response carries the requested id, the username, the
length of the returned list as `count`, and the list itself. -/
def getLogs (off : Int) (st : AppState) (idp : String)
    (fromQ toQ limitQ : Option String) : HttpResponse :=
  if validObjectId idp then
    match findUser st idp with
    | none => resJson (.jstr "User not found.")
    | some u =>
      let entries := filterLog u.log fromQ toQ limitQ
      let formatted := entries.map (fun e =>
        LogEntry.mk e.description e.duration (toDateString off e.date))
      resJson (.logResult idp u.username formatted.length formatted)
  else resJson (.jstr "Could not get user las log data.")

/-! ## Operation sequences -/

/-- One API request. -/
inductive ApiOp where
  | createU (username : Option String)
  | addEx (id : String) (description : Option String) (duration : Option JSVal)
      (date : Option String)
  | getL (id : String) (fromQ toQ limitQ : Option String)
  | listU
deriving DecidableEq

/-- The store after handling one request. -/
def stepOp (off now : Int) (st : AppState) : ApiOp → AppState
  | .createU un => (createUser st un).2
  | .addEx id ds dv dt => (addExercise off now st id ds dv dt).2
  | .getL _ _ _ _ => st
  | .listU => st

/-- The store after handling a sequence of requests. -/
def runOps (off now : Int) (st : AppState) : List ApiOp → AppState
  | [] => st
  | op :: ops => runOps off now (stepOp off now st op) ops

/-- Every exercise in a user's log carries that user's id. -/
def logInv (st : AppState) : Prop :=
  ∀ u ∈ st.users, ∀ e ∈ u.log, e.userId = u.id

/-! ## Specification-side definitions and fixtures -/

/-- UTC calendar-day index of a millisecond timestamp. -/
def dayOfTs (t : Int) : Int := t / 86400000

/-- The range filter as the specification's words describe it (for comparison
with `filterLog`): retain entries whose `date` falls within `[from, to]`
"comparing at date granularity (time-of-day must not affect inclusion)". -/
def filterLogDateGranularity (entries : List Exercise) (f t : String) :
    List Exercise :=
  entries.filter (fun e =>
    match parseDateES f, parseDateES t with
    | some a, some b =>
      decide (dayOfTs a ≤ dayOfTs e.date) && decide (dayOfTs e.date ≤ dayOfTs b)
    | _, _ => false)

/-- The display string that names the calendar day `(y, m, d)` in the
`toDateString` format (weekday consistent with that day). -/
def renderCivil (y m d : Int) : String :=
  weekdayName ((daysFromCivil y m d + 4) % 7) ++ " " ++ monthName m ++ " "
    ++ padNum 2 d.toNat ++ " " ++ yearString y

/-- A valid 24-hex-character `ObjectId`. -/
def oidA : String := "aaaaaaaaaaaaaaaaaaaaaaaa"

/-- A second valid `ObjectId`, not used by any fixture store. -/
def oidB : String := "bbbbbbbbbbbbbbbbbbbbbbbb"

/-- A store holding one user with an empty log. -/
def stAlice : AppState := ⟨[⟨oidA, "alice", []⟩], 1⟩

/-- An exercise dated noon UTC on 2023-01-31. -/
def exNoon : Exercise := ⟨oidA, "run", 30, 1675166400000⟩

/-- A store holding one user whose log contains `exNoon`. -/
def stBob : AppState := ⟨[⟨oidA, "alice", [exNoon]⟩], 1⟩

/-- The empty store. -/
def stEmpty : AppState := ⟨[], 0⟩

/-! ## Helper lemmas: the civil-date round trip -/

theorem yearNumMono (x y : Nat) (h : x ≤ y) : yearNum x ≤ yearNum y := by
  unfold yearNum; omega

theorem yoeOfMono (x y : Nat) (h : x ≤ y) : yoeOf x ≤ yoeOf y :=
  Nat.div_le_div_right (yearNumMono x y h)

set_option maxRecDepth 10000 in
theorem estLo : ∀ yoe < 400, yoeOf (365*yoe + yoe/4 - yoe/100) = yoe := by decide

set_option maxRecDepth 10000 in
theorem estHi : ∀ yoe < 400, yoeOf (365*yoe + yoe/4 - yoe/100 + 364 + leapBit yoe) = yoe := by
  decide

theorem yoeRecNat (yoe doy : Nat) (h2 : yoe < 400) (h4 : doy ≤ 364 + leapBit yoe) :
    yoeOf (365*yoe + yoe/4 - yoe/100 + doy) = yoe := by
  apply Nat.le_antisymm
  · have h6 := yoeOfMono (365*yoe + yoe/4 - yoe/100 + doy)
      (365*yoe + yoe/4 - yoe/100 + 364 + leapBit yoe) (by omega)
    exact le_of_le_of_eq h6 (estHi yoe h2)
  · have h5 := yoeOfMono (365*yoe + yoe/4 - yoe/100)
      (365*yoe + yoe/4 - yoe/100 + doy) (by omega)
    exact le_of_eq_of_le (estLo yoe h2).symm h5

theorem castChain (N : Nat) :
    ((N:Int) - (N:Int) / 1460 + (N:Int) / 36524 - (N:Int) / 146096) / 365
      = ((N - N/1460 + N/36524 - N/146096)/365 : Nat) := by
  omega

theorem yoeRecInt (yoe doy : Int) (h1 : 0 ≤ yoe) (h2 : yoe ≤ 399) (h3 : 0 ≤ doy)
    (h4 : doy.toNat ≤ 364 + leapBit yoe.toNat) :
    ((365*yoe + yoe / 4 - yoe / 100 + doy)
      - (365*yoe + yoe / 4 - yoe / 100 + doy) / 1460
      + (365*yoe + yoe / 4 - yoe / 100 + doy) / 36524
      - (365*yoe + yoe / 4 - yoe / 100 + doy) / 146096) / 365 = yoe := by
  have hD : 365*yoe + yoe / 4 - yoe / 100 + doy
      = ((365*yoe.toNat + yoe.toNat/4 - yoe.toNat/100 + doy.toNat : Nat) : Int) := by
    omega
  rw [hD, castChain]
  have hnat := yoeRecNat yoe.toNat doy.toNat (by omega) h4
  unfold yoeOf yearNum at hnat
  rw [hnat]
  exact Int.toNat_of_nonneg h1

theorem mpRecLate (m d : Int) (hm1 : 3 ≤ m) (hm2 : m ≤ 12) (hd1 : 1 ≤ d) (hd31 : d ≤ 31)
    (h30 : m = 4 ∨ m = 6 ∨ m = 9 ∨ m = 11 → d ≤ 30) :
    (5 * ((153 * (m - 3) + 2) / 5 + d - 1) + 2) / 153 = m - 3 := by
  interval_cases m <;> omega

theorem mpRecEarly (m d : Int) (hm1 : 1 ≤ m) (hm2 : m ≤ 2) (hd1 : 1 ≤ d) (hd31 : d ≤ 31)
    (h29 : m = 2 → d ≤ 29) :
    (5 * ((153 * (m + 9) + 2) / 5 + d - 1) + 2) / 153 = m + 9 := by
  interval_cases m <;> omega

set_option maxHeartbeats 1000000 in
theorem civil_roundtrip (y m d : Int) (hy : 1 ≤ y) (hm1 : 1 ≤ m) (hm2 : m ≤ 12)
    (hd1 : 1 ≤ d) (hd2 : d ≤ daysInMonth y m) :
    civilFromDays (daysFromCivil y m d) = (y, m, d) := by
  simp only [daysInMonth] at hd2
  rcases le_or_lt m 2 with hc | hc
  · have hle : ¬ (m > 2) := by omega
    set era := (y - 1) / 400 with hera_def
    set yoe := (y - 1) - era * 400 with hyoe_def
    set doy := (153 * (m + 9) + 2) / 5 + d - 1 with hdoy_def
    set doe := 365 * yoe + yoe / 4 - yoe / 100 + doy with hdoe_def
    have h1 : 0 ≤ yoe := by omega
    have h2 : yoe ≤ 399 := by omega
    have hd31 : d ≤ 31 := by split_ifs at hd2 <;> omega
    have h29 : m = 2 → d ≤ 29 := by split_ifs at hd2 <;> omega
    have h3 : 0 ≤ doy := by rw [hdoy_def]; omega
    have h4 : doy.toNat ≤ 364 + leapBit yoe.toNat := by
      unfold leapBit
      split <;> split_ifs at hd2 <;> omega
    have h5 : 0 ≤ doe := by
      have hb : leapBit yoe.toNat ≤ 1 := by unfold leapBit; split <;> omega
      omega
    have h6 : doe ≤ 146096 := by
      have hb : leapBit yoe.toNat ≤ 1 := by unfold leapBit; split <;> omega
      omega
    have hdfc : daysFromCivil y m d = era * 146097 + doe - 719468 := by
      simp only [daysFromCivil]
      rw [if_pos hc, if_neg hle, hdoe_def, hdoy_def, hyoe_def, hera_def]
    rw [hdfc]
    simp only [civilFromDays]
    have hz : era * 146097 + doe - 719468 + 719468 = 146097 * era + doe := by ring
    rw [hz]
    have hERA : (146097 * era + doe) / 146097 = era := by omega
    rw [hERA]
    have hDOE : 146097 * era + doe - era * 146097 = doe := by ring
    rw [hDOE]
    have hYOE : (doe - doe / 1460 + doe / 36524 - doe / 146096) / 365 = yoe := by
      rw [hdoe_def]; exact yoeRecInt yoe doy h1 h2 h3 h4
    rw [hYOE]
    have hDOY : doe - (365 * yoe + yoe / 4 - yoe / 100) = doy := by rw [hdoe_def]; ring
    rw [hDOY]
    have hMP : (5 * doy + 2) / 153 = m + 9 := by
      rw [hdoy_def]; exact mpRecEarly m d hm1 hc hd1 hd31 h29
    rw [hMP]
    rw [if_neg (by omega : ¬ (m + 9 < 10))]
    rw [show m + 9 - 9 = m from by ring]
    rw [if_pos hc]
    simp only [Prod.mk.injEq]
    refine ⟨by omega, trivial, by rw [hdoy_def]; ring⟩
  · have hle : ¬ (m ≤ 2) := by omega
    set era := y / 400 with hera_def
    set yoe := y - era * 400 with hyoe_def
    set doy := (153 * (m - 3) + 2) / 5 + d - 1 with hdoy_def
    set doe := 365 * yoe + yoe / 4 - yoe / 100 + doy with hdoe_def
    have h1 : 0 ≤ yoe := by omega
    have h2 : yoe ≤ 399 := by omega
    have hd31 : d ≤ 31 := by split_ifs at hd2 <;> omega
    have h30 : m = 4 ∨ m = 6 ∨ m = 9 ∨ m = 11 → d ≤ 30 := by
      split_ifs at hd2 <;> omega
    have h3 : 0 ≤ doy := by rw [hdoy_def]; omega
    have h4 : doy.toNat ≤ 364 + leapBit yoe.toNat := by
      unfold leapBit
      split <;> split_ifs at hd2 <;> omega
    have h5 : 0 ≤ doe := by
      have hb : leapBit yoe.toNat ≤ 1 := by unfold leapBit; split <;> omega
      omega
    have h6 : doe ≤ 146096 := by
      have hb : leapBit yoe.toNat ≤ 1 := by unfold leapBit; split <;> omega
      omega
    have hdfc : daysFromCivil y m d = era * 146097 + doe - 719468 := by
      simp only [daysFromCivil]
      rw [if_neg hle, if_pos hc, hdoe_def, hdoy_def, hyoe_def, hera_def]
    rw [hdfc]
    simp only [civilFromDays]
    have hz : era * 146097 + doe - 719468 + 719468 = 146097 * era + doe := by ring
    rw [hz]
    have hERA : (146097 * era + doe) / 146097 = era := by omega
    rw [hERA]
    have hDOE : 146097 * era + doe - era * 146097 = doe := by ring
    rw [hDOE]
    have hYOE : (doe - doe / 1460 + doe / 36524 - doe / 146096) / 365 = yoe := by
      rw [hdoe_def]; exact yoeRecInt yoe doy h1 h2 h3 h4
    rw [hYOE]
    have hDOY : doe - (365 * yoe + yoe / 4 - yoe / 100) = doy := by rw [hdoe_def]; ring
    rw [hDOY]
    have hMP : (5 * doy + 2) / 153 = m - 3 := by
      rw [hdoy_def]; exact mpRecLate m d (by omega) hm2 hd1 hd31 h30
    rw [hMP]
    rw [if_pos (by omega : m - 3 < 10)]
    rw [show m - 3 + 3 = m from by ring]
    rw [if_neg hle]
    simp only [Prod.mk.injEq]
    refine ⟨by omega, trivial, by rw [hdoy_def]; ring⟩

/-! ## Helper lemmas: `checkDate` on well-formed input -/

theorem toDateStringEpochDay (off days : Int) :
    toDateString off (days * 86400000 + off * 60000)
      = weekdayName ((days + 4) % 7) ++ " " ++ monthName (civilFromDays days).2.1 ++ " "
        ++ padNum 2 (civilFromDays days).2.2.toNat ++ " " ++ yearString (civilFromDays days).1 := by
  simp only [toDateString]
  have h1 : days * 86400000 + off * 60000 - off * 60000 = days * 86400000 := by ring
  rw [h1]
  have h2 : days * 86400000 / 86400000 = days := by omega
  rw [h2]

theorem dateUTCWellformed (y mo dd : Int) (hy1 : 100 ≤ y)
    (hm1 : 1 ≤ mo) (hm2 : mo ≤ 12) :
    dateUTCms y (mo - 1) dd = (daysFromCivil y mo 1 + (dd - 1)) * 86400000 := by
  simp only [dateUTCms, makeDay, makeFullYear]
  rw [if_neg (by omega)]
  have e1 : (mo - 1) / 12 = 0 := by omega
  have e2 : (mo - 1) % 12 = mo - 1 := by omega
  rw [e1, e2, add_zero]
  have e3 : mo - 1 + 1 = mo := by ring
  rw [e3]

theorem daysFromCivilShift (y mo dd : Int) :
    daysFromCivil y mo 1 + (dd - 1) = daysFromCivil y mo dd := by
  simp only [daysFromCivil]
  split_ifs <;> ring

theorem checkDateWellformed (off now : Int) (s p0 p1 p2 : String) (y mo dd : Int)
    (h0 : (jsSplit '-' s).get? 0 = some p0)
    (h1 : (jsSplit '-' s).get? 1 = some p1)
    (h2 : (jsSplit '-' s).get? 2 = some p2)
    (hp0 : parseIntJS p0 = some y)
    (hp1 : parseIntJS p1 = some mo)
    (hp2 : parseIntJS p2 = some dd)
    (hs : s ≠ "")
    (hy1 : 100 ≤ y) (hy2 : y ≤ 9999)
    (hm1 : 1 ≤ mo) (hm2 : mo ≤ 12)
    (hd1 : 1 ≤ dd) (hd2 : dd ≤ daysInMonth y mo) :
    checkDate off now (some s) = renderCivil y mo dd := by
  simp only [checkDate]
  rw [if_neg hs]
  have e0 : ((jsSplit '-' s).get? 0).bind parseIntJS = some y := by rw [h0]; exact hp0
  have e1 : ((jsSplit '-' s).get? 1).bind parseIntJS = some mo := by rw [h1]; exact hp1
  have e2 : ((jsSplit '-' s).get? 2).bind parseIntJS = some dd := by rw [h2]; exact hp2
  simp only [e0, e1, e2]
  rw [dateUTCWellformed y mo dd hy1 hm1 hm2, daysFromCivilShift y mo dd,
    toDateStringEpochDay, civil_roundtrip y mo dd (by omega) hm1 hm2 hd1 hd2]
  rfl

/-! ## Claim theorems -/

/-- C1 counterexample: `isValidDuration` accepts values outside `[0, 600]`
because `parseInt` reads only a numeric prefix of the stringified value.
The number `-0.5` is below 0, yet parses to `-0` and is accepted; the number
`1e21` is above 600, yet stringifies to `"1e+21"`, parses to `1`, and is
accepted — so the claim's "false for any value below 0 or above 600" fails. -/
theorem claimC1_counterexample :
    isValidDuration (JSVal.num (mkRat (-1) 2)) = true
    ∧ mkRat (-1) 2 < 0
    ∧ parseIntVal (JSVal.num (mkRat (-1) 2)) = some 0
    ∧ isValidDuration (JSVal.num 1000000000000000000000) = true
    ∧ (600:Rat) < 1000000000000000000000
    ∧ parseIntVal (JSVal.num 1000000000000000000000) = some 1 := by
  refine ⟨by decide, by decide, by decide, by decide, by decide, by decide⟩

/-- C1 amended: `isValidDuration` returns true exactly when `parseInt`
applied to the value — a number is stringified first, and only the longest
numeric prefix of the (possibly exponential) rendering is read — yields a
non-`NaN` integer in `[0, 600]`.  The fractional part of a numeric string is
truncated, not rounded (`"600.9"` is accepted), `"600"` is accepted, and
`"601"` and `"abc"` are rejected; but raw values outside `[0, 600]` can be
accepted when their parse lands inside, e.g. `1e21` parses to `1`. -/
theorem claimC1_isValidDuration :
    (∀ v : JSVal, isValidDuration v = true ↔
      ∃ n : Int, parseIntVal v = some n ∧ 0 ≤ n ∧ n ≤ 600)
    ∧ isValidDuration (.str "600") = true
    ∧ isValidDuration (.str "601") = false
    ∧ isValidDuration (.str "abc") = false
    ∧ isValidDuration (.str "600.9") = true
    ∧ parseIntVal (.num 1000000000000000000000) = some 1
    ∧ isValidDuration (.num 1000000000000000000000) = true := by
  refine ⟨fun v => ?_, by decide, by decide, by decide, by decide, by decide, by decide⟩
  unfold isValidDuration
  cases h : parseIntVal v with
  | none => simp
  | some n => simp

/-- Witness for C1 at a concrete input. -/
theorem claimC1_witness : isValidDuration (JSVal.str "42") = true :=
  (claimC1_isValidDuration.1 (JSVal.str "42")).mpr ⟨42, by decide, by decide, by decide⟩

/-- C2 counterexample: an exercise dated noon UTC on 2023-01-31 falls on the
calendar day named by `to`, so date-granularity filtering would retain it,
but the filter compares full timestamps against UTC midnight of `to` and
drops it — the entry's time of day does affect inclusion. -/
theorem claimC2_counterexample :
    parseDateES "2023-01-31" = some 1675123200000
    ∧ dayOfTs exNoon.date = dayOfTs 1675123200000
    ∧ filterLog [exNoon] (some "2023-01-01") (some "2023-01-31") none = []
    ∧ filterLogDateGranularity [exNoon] "2023-01-01" "2023-01-31" = [exNoon] := by
  refine ⟨by decide, by decide, by decide, by decide⟩

/-- C2 amended: with both bounds present and parseable, the filter retains
exactly the entries whose full millisecond timestamp lies in the closed
interval between UTC midnight of `from` and UTC midnight of `to` (timestamp
granularity, not date granularity), and the surviving entries keep their
original insertion order. -/
theorem claimC2_range_filter (entries : List Exercise) (f t : String) (a b : Int)
    (hf : f ≠ "") (ht : t ≠ "")
    (hpf : parseDateES f = some a) (hpt : parseDateES t = some b) :
    List.Sublist (filterLog entries (some f) (some t) none) entries
    ∧ ∀ e : Exercise, e ∈ filterLog entries (some f) (some t) none
        ↔ e ∈ entries ∧ a ≤ e.date ∧ e.date ≤ b := by
  have hfl : filterLog entries (some f) (some t) none
      = entries.filter (fun e =>
          match parseDateES f, parseDateES t with
          | some a, some b => decide (a ≤ e.date) && decide (e.date ≤ b)
          | _, _ => false) := by
    simp only [filterLog]
    rw [if_pos ⟨hf, ht⟩]
  rw [hfl]
  constructor
  · exact List.filter_sublist entries
  · intro e
    rw [List.mem_filter]
    simp [hpf, hpt]

/-- Witness for the amended C2 at a concrete input. -/
theorem claimC2_witness :
    List.Sublist (filterLog [exNoon] (some "2023-01-01") (some "2023-01-31") none) [exNoon] :=
  (claimC2_range_filter [exNoon] "2023-01-01" "2023-01-31" 1672531200000 1675123200000
    (by decide) (by decide) (by decide) (by decide)).1

/-- C6: when exactly one of `from` and `to` is present, no range filtering is
applied — the result equals the result with neither bound present. -/
theorem claimC6_lone_bound (entries : List Exercise) (fq tq lq : Option String)
    (h : (fq ≠ none ∧ tq = none) ∨ (fq = none ∧ tq ≠ none)) :
    filterLog entries fq tq lq = filterLog entries none none lq := by
  rcases h with ⟨hf, rfl⟩ | ⟨rfl, ht⟩
  · cases fq with
    | none => rfl
    | some f => simp only [filterLog]
  · cases tq with
    | none => rfl
    | some t => simp only [filterLog]

/-- Witness for C6 at a concrete input. -/
theorem claimC6_witness :
    filterLog [exNoon] (some "2023-01-01") none none = filterLog [exNoon] none none none :=
  claimC6_lone_bound [exNoon] (some "2023-01-01") none none (Or.inl ⟨by decide, rfl⟩)

/-- C7: a present limit that parses to a non-negative integer `n` truncates
the (possibly range-filtered) sequence to its first `n` entries in existing
order, and a sequence with at most `n` entries is returned unchanged. -/
theorem claimC7_limit (entries : List Exercise) (fq tq : Option String) (l : String) (n : Int)
    (hl : l ≠ "") (hp : parseIntJS l = some n) (hn : 0 ≤ n) :
    filterLog entries fq tq (some l) = (filterLog entries fq tq none).take n.toNat
    ∧ ((filterLog entries fq tq none).length ≤ n.toNat →
        filterLog entries fq tq (some l) = filterLog entries fq tq none) := by
  have key : filterLog entries fq tq (some l) = (filterLog entries fq tq none).take n.toNat := by
    simp only [filterLog]
    rw [if_pos hl, hp]
    simp only [jsSlice]
    rw [if_pos hn]
  refine ⟨key, fun hlen => ?_⟩
  rw [key]
  exact List.take_of_length_le hlen

/-- Witness for C7 at a concrete input. -/
theorem claimC7_witness :
    filterLog [exNoon] none none (some "3") = (filterLog [exNoon] none none none).take 3 :=
  (claimC7_limit [exNoon] none none "3" 3 (by decide) (by decide) (by decide)).1

/-- C10: a present limit that does not parse to an integer (`parseInt` gives
`NaN`, so `slice(0, NaN)` keeps nothing) makes the returned log empty with
count 0, even for a user whose log is non-empty. -/
theorem claimC10_bad_limit (off : Int) (st : AppState) (idp : String)
    (fq tq : Option String) (l : String) (u : UserRec)
    (hval : validObjectId idp = true) (hfind : findUser st idp = some u)
    (hl : l ≠ "") (hp : parseIntJS l = none) :
    getLogs off st idp fq tq (some l) = resJson (.logResult idp u.username 0 []) := by
  simp only [getLogs]
  rw [if_pos hval]
  simp only [hfind]
  have hempty : filterLog u.log fq tq (some l) = [] := by
    simp only [filterLog]
    rw [if_pos hl, hp]
    rfl
  rw [hempty]
  rfl

/-- Witness for C10: the fixture user's log is non-empty, yet limit `"abc"`
yields count 0 and an empty log. -/
theorem claimC10_witness :
    getLogs 0 stBob oidA none none (some "abc") = resJson (.logResult oidA "alice" 0 []) :=
  claimC10_bad_limit 0 stBob oidA none none "abc" ⟨oidA, "alice", [exNoon]⟩
    (by decide) (by decide) (by decide) (by decide)

/-- C3 counterexample: the validator accepts the duration 0, yet for an
existing user a request with description present and numeric duration 0 is
rejected as `"Missing fields."` (the handler's falsy test `!duration` treats
the number 0 as missing), so the request does not succeed as the claim
states. -/
theorem claimC3_counterexample :
    isValidDuration (.num 0) = true
    ∧ (addExercise 0 0 stAlice oidA (some "run") (some (.num 0)) none).1
        = resJson (.jstr "Missing fields.")
    ∧ (addExercise 0 0 stAlice oidA (some "run") (some (.num 0)) none).2 = stAlice := by
  refine ⟨by decide, by decide, by decide⟩

/-- C3 amended: for an existing user, the request answers
`"Missing fields."` exactly when the description or the duration is absent or
falsy (the empty string, or the number 0 — which the claim said should
succeed); a present, truthy but invalid duration answers the duration error
message; a present, truthy, valid duration whose mongoose `Number` cast
succeeds, together with a parseable normalized date, appends the exercise
(with `userId` the target id) to the user's log and returns the user's id and
username with the new exercise's fields, the date as a display string. -/
theorem claimC3_addExercise (off now : Int) (st : AppState) (idp : String)
    (date : Option String) (u : UserRec)
    (hval : validObjectId idp = true) (hfind : findUser st idp = some u) :
    (∀ (d2 : Option String) (v2 : Option JSVal),
        (d2 = none ∨ d2 = some "" ∨ v2 = none ∨ ∃ v, v2 = some v ∧ jsvalFalsy v = true) →
        addExercise off now st idp d2 v2 date = (resJson (.jstr "Missing fields."), st))
    ∧ (∀ (ds : String) (dv : JSVal), ds ≠ "" → jsvalFalsy dv = false →
        isValidDuration dv = false →
        addExercise off now st idp (some ds) (some dv) date
          = (resJson (.jstr (durationErrorMsg dv)), st))
    ∧ (∀ (ds : String) (dv : JSVal) (q : Rat) (ts : Int), ds ≠ "" → jsvalFalsy dv = false →
        isValidDuration dv = true → castNumber dv = some q →
        parseDisplayDate off (checkDate off now date) = some ts →
        addExercise off now st idp (some ds) (some dv) date
          = (resJson (.exerciseAdded u.id u.username ds q (toDateString off ts)),
             { st with users := updateUserLog st.users idp ⟨idp, ds, q, ts⟩ })) := by
  refine ⟨?_, ?_, ?_⟩
  · intro d2 v2 h
    rcases h with rfl | rfl | rfl | ⟨v, rfl, hv⟩
    · cases v2 <;> (simp only [addExercise]; rw [if_pos hval])
    · cases v2 with
      | none => simp only [addExercise]; rw [if_pos hval]
      | some v => simp only [addExercise]; rw [if_pos hval]; simp
    · cases d2 <;> (simp only [addExercise]; rw [if_pos hval])
    · cases d2 with
      | none => simp only [addExercise]; rw [if_pos hval]
      | some ds => simp only [addExercise]; rw [if_pos hval]; simp [hv]
  · intro ds dv hds hdv hvalid
    simp only [addExercise]
    rw [if_pos hval, if_neg (by simp [hds, hdv]), if_pos (by simp [hvalid])]
  · intro ds dv q ts hds hdv hvalid hcast hdate
    simp only [addExercise]
    rw [if_pos hval, if_neg (by simp [hds, hdv]), if_neg (by simp [hvalid])]
    simp only [hfind, hcast, hdate]

/-- Witness for the amended C3: a successful add at concrete inputs. -/
theorem claimC3_witness :
    addExercise 0 0 stAlice oidA (some "run") (some (.str "30")) (some "2023-05-01")
      = (resJson (.exerciseAdded oidA "alice" "run" 30 "Mon May 01 2023"),
         { stAlice with users := updateUserLog stAlice.users oidA ⟨oidA, "run", 30, 1682899200000⟩ }) :=
  ((claimC3_addExercise 0 0 stAlice oidA (some "2023-05-01") ⟨oidA, "alice", []⟩
      (by decide) (by decide)).2.2 "run" (.str "30") 30 1682899200000
      (by decide) (by decide) (by decide) (by decide) (by decide)).trans (by decide)

/-- C5: a Get Log request with a well-formed id answers `"User not found."`
(status 200, not a server error) when no user has that id; for an existing
user it answers the requested id, the username, the filtered log shaped as
`{description, duration, date-string}`, and a count equal to the length of
the returned (post-filter) list. -/
theorem claimC5_getLogs (off : Int) (st : AppState) (idp : String)
    (fq tq lq : Option String) (hval : validObjectId idp = true) :
    (findUser st idp = none → getLogs off st idp fq tq lq = resJson (.jstr "User not found."))
    ∧ (∀ u, findUser st idp = some u →
        getLogs off st idp fq tq lq
          = resJson (.logResult idp u.username
              ((filterLog u.log fq tq lq).map (fun e =>
                LogEntry.mk e.description e.duration (toDateString off e.date))).length
              ((filterLog u.log fq tq lq).map (fun e =>
                LogEntry.mk e.description e.duration (toDateString off e.date))))
        ∧ ((filterLog u.log fq tq lq).map (fun e =>
              LogEntry.mk e.description e.duration (toDateString off e.date))).length
            = (filterLog u.log fq tq lq).length) := by
  constructor
  · intro h
    simp only [getLogs]
    rw [if_pos hval]
    simp only [h]
  · intro u hu
    constructor
    · simp only [getLogs]
      rw [if_pos hval]
      simp only [hu]
    · exact List.length_map _ _

/-- Witness for C5: a nonexistent (but well-formed) id answers not-found. -/
theorem claimC5_witness :
    getLogs 0 stAlice oidB none none none = resJson (.jstr "User not found.") :=
  (claimC5_getLogs 0 stAlice oidB none none none (by decide)).1 (by decide)

/-- C8: every response of the four API handlers — success or error — carries
HTTP status 200; errors are distinguishable only by the body. -/
theorem claimC8_status200 (off now : Int) (st : AppState) (idp : String)
    (un ds : Option String) (dv : Option JSVal) (date fq tq lq : Option String) :
    (createUser st un).1.status = 200
    ∧ (listUsers st).status = 200
    ∧ (addExercise off now st idp ds dv date).1.status = 200
    ∧ (getLogs off st idp fq tq lq).status = 200 := by
  refine ⟨?_, rfl, ?_, ?_⟩
  · cases un with
    | none => rfl
    | some u =>
      simp only [createUser]
      split <;> rfl
  · simp only [addExercise]
    repeat' split
    all_goals rfl
  · simp only [getLogs]
    repeat' split
    all_goals rfl

/-- Appending an exercise that carries the target id preserves the log
invariant. -/
theorem updateUserLogInv (users : List UserRec) (id : String) (ex : Exercise)
    (hex : ex.userId = id)
    (hinv : ∀ u ∈ users, ∀ e ∈ u.log, e.userId = u.id) :
    ∀ u ∈ updateUserLog users id ex, ∀ e ∈ u.log, e.userId = u.id := by
  induction users with
  | nil => intro u hu; simp [updateUserLog] at hu
  | cons a as ih =>
    simp only [updateUserLog]
    split
    · next hid =>
      intro u hu e he
      rcases List.mem_cons.mp hu with rfl | hmem
      · rcases List.mem_append.mp he with h1 | h2
        · exact hinv a (List.mem_cons_self a as) e h1
        · have hx : e = ex := by simpa using h2
          subst hx
          show e.userId = a.id
          rw [hex, hid]
      · exact hinv u (List.mem_cons_of_mem a hmem) e he
    · intro u hu e he
      rcases List.mem_cons.mp hu with rfl | hmem
      · exact hinv u (List.mem_cons_self u as) e he
      · exact ih (fun v hv => hinv v (List.mem_cons_of_mem a hv)) u hmem e he

/-- The store after an Add Exercise request is either unchanged or the
original store with one exercise — carrying the target id — appended to the
target user's log. -/
theorem addExercise_state (off now : Int) (st : AppState) (idp : String)
    (ds : Option String) (dv : Option JSVal) (date : Option String) :
    (addExercise off now st idp ds dv date).2 = st
    ∨ ∃ d q ts, (addExercise off now st idp ds dv date).2
        = { st with users := updateUserLog st.users idp ⟨idp, d, q, ts⟩ } := by
  simp only [addExercise]
  repeat' split
  all_goals first
    | exact Or.inl rfl
    | exact Or.inr ⟨_, _, _, rfl⟩

/-- Each API request preserves the log invariant. -/
theorem stepOpInv (off now : Int) (st : AppState) (op : ApiOp) (h : logInv st) :
    logInv (stepOp off now st op) := by
  cases op with
  | getL i f t l => exact h
  | listU => exact h
  | createU un =>
    cases un with
    | none => exact h
    | some u =>
      simp only [stepOp, createUser]
      split
      · exact h
      · intro v hv e he
        rcases List.mem_append.mp hv with h1 | h2
        · exact h v h1 e he
        · have hx : v = ⟨objectIdOfNat st.nextOid, u, []⟩ := by simpa using h2
          subst hx
          exact absurd he (List.not_mem_nil e)
  | addEx i d v dt =>
    simp only [stepOp]
    rcases addExercise_state off now st i d v dt with heq | ⟨d2, q, ts, heq⟩
    · rw [heq]; exact h
    · rw [heq]
      intro u hu e he
      exact updateUserLogInv st.users i ⟨i, d2, q, ts⟩ rfl h u hu e he

/-- C9: after any sequence of API requests from a store satisfying the log
invariant, every exercise in every user's log still carries that user's id —
Add Exercise, the only operation extending a log, creates the appended
exercise with `userId` set to the target user's id. -/
theorem claimC9_invariant (off now : Int) (st : AppState) (ops : List ApiOp)
    (h : logInv st) : logInv (runOps off now st ops) := by
  induction ops generalizing st with
  | nil => exact h
  | cons op ops ih => exact ih _ (stepOpInv off now st op h)

/-- Witness for C9: a concrete request sequence from the empty store. -/
theorem claimC9_witness :
    logInv (runOps 0 0 stEmpty
      [ApiOp.createU (some "alice"),
       ApiOp.addEx (objectIdOfNat 0) (some "run") (some (.str "30")) none]) :=
  claimC9_invariant 0 0 stEmpty _ (fun u hu => absurd hu (List.not_mem_nil u))

/-- C4 counterexample: the well-formed input `"0050-01-01"` names 1 January
of year 50, but `Date.UTC` maps years 0-99 to 1900+y, so `checkDate` renders
`"Sun Jan 01 1950"` — a different calendar day than the input names. -/
theorem claimC4_counterexample :
    checkDate 0 0 (some "0050-01-01") = "Sun Jan 01 1950"
    ∧ renderCivil 50 1 1 = "Sat Jan 01 0050"
    ∧ checkDate 0 0 (some "0050-01-01") ≠ renderCivil 50 1 1 := by
  refine ⟨by decide, by decide, by decide⟩

/-- C4 amended: `checkDate` maps `"2023-01-01"` to exactly
`"Sun Jan 01 2023"` under every constant local offset, and for every
well-formed `yyyy-mm-dd` input naming a valid calendar date with year field
at least 100, the rendered weekday, month, day and year name the input's
calendar day regardless of the offset (years 00-99 are shifted to 1900+y by
the runtime's `Date.UTC`). -/
theorem claimC4_normalize :
    (∀ off now : Int, checkDate off now (some "2023-01-01") = "Sun Jan 01 2023")
    ∧ (∀ (off now : Int) (s p0 p1 p2 : String) (y mo dd : Int),
        (jsSplit '-' s).get? 0 = some p0 → (jsSplit '-' s).get? 1 = some p1 →
        (jsSplit '-' s).get? 2 = some p2 →
        parseIntJS p0 = some y → parseIntJS p1 = some mo → parseIntJS p2 = some dd →
        s ≠ "" → 100 ≤ y → y ≤ 9999 → 1 ≤ mo → mo ≤ 12 → 1 ≤ dd → dd ≤ daysInMonth y mo →
        checkDate off now (some s) = renderCivil y mo dd) := by
  constructor
  · intro off now
    have h := checkDateWellformed off now "2023-01-01" "2023" "01" "01" 2023 1 1
      (by decide) (by decide) (by decide) (by decide) (by decide) (by decide)
      (by decide) (by decide) (by decide) (by decide) (by decide) (by decide) (by decide)
    rw [h]
    decide
  · intro off now s p0 p1 p2 y mo dd h0 h1 h2 hp0 hp1 hp2 hs hy1 hy2 hm1 hm2 hd1 hd2
    exact checkDateWellformed off now s p0 p1 p2 y mo dd h0 h1 h2 hp0 hp1 hp2 hs
      hy1 hy2 hm1 hm2 hd1 hd2

/-- Witness for the amended C4 at a concrete input and a nonzero offset. -/
theorem claimC4_witness : checkDate 7 123 (some "2023-12-31") = renderCivil 2023 12 31 :=
  claimC4_normalize.2 7 123 "2023-12-31" "2023" "12" "31" 2023 12 31 (by decide) (by decide)
    (by decide) (by decide) (by decide) (by decide) (by decide) (by decide) (by decide)
    (by decide) (by decide) (by decide) (by decide)
